import Mathlib

/-!
Shallow embedding of the SiteObserver core (state.py, conditions.py,
scraper.py) and proofs about its specification.

Modelling conventions:
* Python `int` indices and counters are `Nat` (the spec types them `uint`);
  `datetime` values are modelled as integer seconds since an epoch, and
  `datetime.fromisoformat` as an abstract partial parse function
  `String → Option Int` (`none` models the `ValueError` branch).
* Python's slice `xs[-n:]` for a nonnegative `n` is `pySliceLast n xs`:
  the whole list when `n = 0`, otherwise the last `min n (length xs)`
  elements.  The `if len(xs) > cap: xs = xs[-cap:]` truncation idiom is
  `pyTruncLast cap xs`.
* External collaborators of the condition-evaluation tick (auth lookup,
  notifier, uuid generation, wall clock) are passed in as an `Env` record.
-/

namespace SiteObserver

/-- `Roll` dataclass (state.py): one observed outcome. -/
structure Roll where
  index : Nat
  coin : String
  timestamp : String
deriving DecidableEq

/-- `Condition` dataclass (state.py). -/
structure Condition where
  id : String
  color : String
  type : String
  param_n : Nat
  param_threshold : Nat
  cooldown_minutes : Nat
  last_fired_at : String
  enabled : Bool
  user_email : String
deriving DecidableEq

/-- `Alert` dataclass (state.py). -/
structure Alert where
  id : String
  condition_id : String
  condition_desc : String
  user_email : String
  fired_at : String
  email_sent : Bool
  error : String
deriving DecidableEq

/-- In-memory fields of `SharedState` (state.py) that the core mutates. -/
structure SharedState where
  rolls : List Roll
  last_index : Nat
  conditions : List Condition
  alerts : List Alert
deriving DecidableEq

/-- The freshly initialised store (`SharedState.__init__` with no persisted
conditions): empty history, high-water mark at the sentinel 0. -/
def initialState : SharedState :=
  { rolls := [], last_index := 0, conditions := [], alerts := [] }

/-- Python slice `xs[-n:]` for a nonnegative `n`: whole list when `n = 0`,
otherwise the last `min n (length xs)` elements. -/
def pySliceLast (n : Nat) (xs : List α) : List α :=
  if n = 0 then xs else xs.drop (xs.length - n)

/-- Python truncation idiom `if len(xs) > cap: xs = xs[-cap:]`. -/
def pyTruncLast (cap : Nat) (xs : List α) : List α :=
  if cap < xs.length then xs.drop (xs.length - cap) else xs

/-- Body of the `for roll in new_rolls` loop of `SharedState.add_rolls`
(state.py): accumulator is `(rolls, last_index, added)`. -/
def addRollStep (acc : List Roll × Nat × List Roll) (roll : Roll) :
    List Roll × Nat × List Roll :=
  if acc.2.1 < roll.index then (acc.1 ++ [roll], roll.index, acc.2.2 ++ [roll])
  else acc

/-- `SharedState.add_rolls` (state.py): accept each candidate whose index
exceeds the current high-water mark, advance the mark, truncate the stored
history to the most recent 200, and return the accepted rolls. -/
def add_rolls (s : SharedState) (new_rolls : List Roll) :
    List Roll × SharedState :=
  let out := new_rolls.foldl addRollStep (s.rolls, s.last_index, [])
  (out.2.2, { s with rolls := pyTruncLast 200 out.1, last_index := out.2.1 })

/-- `SharedState.get_rolls` (state.py): returns `self.rolls[-n:]`. -/
def get_rolls (s : SharedState) (n : Nat) : List Roll :=
  pySliceLast n s.rolls

/-- `SharedState.remove_condition` (state.py): keep every condition that does
not match both the id and the owner email. -/
def remove_condition (s : SharedState) (condition_id : String)
    (user_email : String) : SharedState :=
  let kept := s.conditions.filter
    (fun c => !(c.id == condition_id && c.user_email == user_email))
  { s with conditions := kept }

/-- The in-place update loop of `SharedState.update_condition_fired`
(state.py): set `last_fired_at` on the first condition with a matching id,
then stop. -/
def markFired : List Condition → String → String → List Condition
  | [], _, _ => []
  | c :: cs, cid, now =>
    if c.id == cid then { c with last_fired_at := now } :: cs
    else c :: markFired cs cid now

/-- `SharedState.update_condition_fired` (state.py); `nowIso` is the string
`datetime.now().isoformat()` produced at call time. -/
def update_condition_fired (s : SharedState) (condition_id : String)
    (nowIso : String) : SharedState :=
  { s with conditions := markFired s.conditions condition_id nowIso }

/-- `SharedState.add_alert` (state.py): append, truncate to the last 500. -/
def add_alert (s : SharedState) (alert : Alert) : SharedState :=
  { s with alerts := pyTruncLast 500 (s.alerts ++ [alert]) }

/-- `COLORS.get(coin, coin)` (state.py). -/
def colorName (coin : String) : String :=
  if coin == "ct" then "Black"
  else if coin == "t" then "Orange"
  else if coin == "bonus" then "Green"
  else coin

/-- `Condition.description` (state.py). -/
def description (c : Condition) : String :=
  if c.type == "count_below" then
    colorName c.color ++ " count < " ++ toString c.param_threshold ++
      " in last " ++ toString c.param_n ++ " rolls"
  else if c.type == "absent_streak" then
    colorName c.color ++ " absent for " ++ toString c.param_n ++
      " consecutive rolls"
  else if c.type == "consecutive" then
    colorName c.color ++ " appears " ++ toString c.param_n ++ "x in a row"
  else "Unknown condition type: " ++ c.type

/-- `_check_count_below` (conditions.py). -/
def _check_count_below (condition : Condition) (rolls : List Roll) : Bool :=
  let window := pySliceLast condition.param_n rolls
  decide ((window.countP (fun r => r.coin == condition.color)) <
    condition.param_threshold)

/-- `_check_absent_streak` (conditions.py). -/
def _check_absent_streak (condition : Condition) (rolls : List Roll) : Bool :=
  let window := pySliceLast condition.param_n rolls
  if window.length < condition.param_n then false
  else window.all (fun r => r.coin != condition.color)

/-- `_check_consecutive` (conditions.py). -/
def _check_consecutive (condition : Condition) (rolls : List Roll) : Bool :=
  if rolls.length < condition.param_n then false
  else (pySliceLast condition.param_n rolls).all
    (fun r => r.coin == condition.color)

/-- `evaluate` (conditions.py). -/
def evaluate (condition : Condition) (rolls : List Roll) : Bool :=
  if rolls.isEmpty || !condition.enabled then false
  else if condition.type == "count_below" then _check_count_below condition rolls
  else if condition.type == "absent_streak" then _check_absent_streak condition rolls
  else if condition.type == "consecutive" then _check_consecutive condition rolls
  else false

/-- `is_in_cooldown` (conditions.py): `parseIso` models
`datetime.fromisoformat` (`none` is the `ValueError` branch), `nowSec`
models `datetime.now()` in seconds, and `timedelta(minutes=m)` is `m * 60`
seconds. -/
def is_in_cooldown (parseIso : String → Option Int) (nowSec : Int)
    (condition : Condition) : Bool :=
  if condition.last_fired_at == "" then false
  else
    match parseIso condition.last_fired_at with
    | none => false
    | some last =>
        decide (nowSec - last < (condition.cooldown_minutes : Int) * 60)

/-- Sequential application of `add_rolls` batches, discarding the returned
accepted lists: the store trace used to state whole-history invariants. -/
def applyBatches (s : SharedState) (batches : List (List Roll)) : SharedState :=
  batches.foldl (fun t b => (add_rolls t b).2) s

/-- Helper list used by witnesses: rolls with the given coins, indexed
consecutively from `i`. -/
def mkRolls : Nat → List String → List Roll
  | _, [] => []
  | i, coin :: rest => { index := i, coin := coin, timestamp := "" } :: mkRolls (i + 1) rest

/-- Recursive description of the accept loop of `add_rolls`: returns the
accepted sublist and the final high-water mark. -/
def acceptLoop : List Roll → Nat → List Roll × Nat
  | [], last => ([], last)
  | roll :: rest, last =>
    if last < roll.index then
      ((roll :: (acceptLoop rest roll.index).1), (acceptLoop rest roll.index).2)
    else acceptLoop rest last

theorem foldl_addRollStep_eq (nr : List Roll) :
    ∀ (rolls : List Roll) (last : Nat) (added : List Roll),
      nr.foldl addRollStep (rolls, last, added)
        = (rolls ++ (acceptLoop nr last).1, (acceptLoop nr last).2,
            added ++ (acceptLoop nr last).1) := by
  induction nr with
  | nil => intro rolls last added; simp [acceptLoop]
  | cons roll rest ih =>
    intro rolls last added
    by_cases h : last < roll.index
    · simp [List.foldl_cons, addRollStep, acceptLoop, h, ih]
    · simp [List.foldl_cons, addRollStep, acceptLoop, h, ih]

theorem add_rolls_eq (s : SharedState) (nr : List Roll) :
    add_rolls s nr
      = ((acceptLoop nr s.last_index).1,
          { s with
              rolls := pyTruncLast 200 (s.rolls ++ (acceptLoop nr s.last_index).1),
              last_index := (acceptLoop nr s.last_index).2 }) := by
  simp [add_rolls, foldl_addRollStep_eq]

theorem acceptLoop_last_mono (nr : List Roll) :
    ∀ last, last ≤ (acceptLoop nr last).2 := by
  induction nr with
  | nil => intro last; simp [acceptLoop]
  | cons roll rest ih =>
    intro last
    by_cases h : last < roll.index
    · simp only [acceptLoop, if_pos h]
      exact le_trans (le_of_lt h) (ih roll.index)
    · simp only [acceptLoop, if_neg h]
      exact ih last

theorem acceptLoop_mem (nr : List Roll) :
    ∀ last r, r ∈ (acceptLoop nr last).1 →
      last < r.index ∧ r.index ≤ (acceptLoop nr last).2 := by
  induction nr with
  | nil => intro last r hr; simp [acceptLoop] at hr
  | cons roll rest ih =>
    intro last r hr
    by_cases h : last < roll.index
    · simp only [acceptLoop, if_pos h] at hr ⊢
      rcases List.mem_cons.mp hr with rfl | hr2
      · exact ⟨h, acceptLoop_last_mono rest r.index⟩
      · have := ih roll.index r hr2
        exact ⟨lt_trans h this.1, this.2⟩
    · simp only [acceptLoop, if_neg h] at hr ⊢
      exact ih last r hr

theorem acceptLoop_pairwise (nr : List Roll) :
    ∀ last, ((acceptLoop nr last).1.map Roll.index).Pairwise (· < ·) := by
  induction nr with
  | nil => intro last; simp [acceptLoop]
  | cons roll rest ih =>
    intro last
    by_cases h : last < roll.index
    · simp only [acceptLoop, if_pos h, List.map_cons, List.pairwise_cons]
      refine ⟨?_, ih roll.index⟩
      intro b hb
      rcases List.mem_map.mp hb with ⟨r, hr, rfl⟩
      exact (acceptLoop_mem rest roll.index r hr).1
    · simp only [acceptLoop, if_neg h]
      exact ih last

theorem acceptLoop_none (nr : List Roll) :
    ∀ last, (∀ r ∈ nr, r.index ≤ last) → acceptLoop nr last = ([], last) := by
  induction nr with
  | nil => intro last _; rfl
  | cons roll rest ih =>
    intro last hle
    have h1 : ¬ last < roll.index := by
      have := hle roll (List.mem_cons_self roll rest)
      omega
    simp only [acceptLoop, if_neg h1]
    exact ih last (fun r hr => hle r (List.mem_cons_of_mem roll hr))

theorem acceptLoop_all (nr : List Roll) :
    ∀ last, (∀ r ∈ nr, last < r.index) →
      ((nr.map Roll.index).Pairwise (· < ·)) →
      (acceptLoop nr last).1 = nr := by
  induction nr with
  | nil => intro last _ _; rfl
  | cons roll rest ih =>
    intro last hgt hpw
    have h1 : last < roll.index := hgt roll (List.mem_cons_self roll rest)
    simp only [acceptLoop, if_pos h1, List.cons.injEq, true_and]
    rw [List.map_cons, List.pairwise_cons] at hpw
    rcases hpw with ⟨hhead, htail⟩
    refine ih roll.index ?_ htail
    intro r hr
    exact hhead r.index (List.mem_map.mpr ⟨r, hr, rfl⟩)

theorem pyTruncLast_sublist (cap : Nat) (xs : List α) :
    (pyTruncLast cap xs).Sublist xs := by
  unfold pyTruncLast
  split
  · exact List.drop_sublist _ _
  · exact List.Sublist.refl xs

theorem pyTruncLast_suffix (cap : Nat) (xs : List α) :
    (pyTruncLast cap xs).IsSuffix xs := by
  unfold pyTruncLast
  split
  · exact List.drop_suffix _ _
  · exact List.suffix_refl xs

theorem pyTruncLast_length (cap : Nat) (xs : List α) :
    (pyTruncLast cap xs).length ≤ cap := by
  unfold pyTruncLast
  split
  · rw [List.length_drop]; omega
  · omega

theorem pyTruncLast_eq_self (cap : Nat) (xs : List α)
    (h : xs.length ≤ cap) : pyTruncLast cap xs = xs := by
  unfold pyTruncLast
  rw [if_neg (by omega)]

/-- Store invariant tying the roll history to the high-water mark. -/
def StoreInv (s : SharedState) : Prop :=
  ((s.rolls.map Roll.index).Pairwise (· < ·)) ∧
    ∀ r ∈ s.rolls, r.index ≤ s.last_index

theorem initialState_inv : StoreInv initialState := by
  constructor
  · simp [initialState]
  · intro r hr; simp [initialState] at hr

theorem add_rolls_inv (s : SharedState) (nr : List Roll) (h : StoreInv s) :
    StoreInv (add_rolls s nr).2 := by
  rw [add_rolls_eq]
  rcases h with ⟨hpw, hle⟩
  constructor
  · have hfull : ((s.rolls ++ (acceptLoop nr s.last_index).1).map Roll.index).Pairwise
        (· < ·) := by
      rw [List.map_append, List.pairwise_append]
      refine ⟨hpw, acceptLoop_pairwise nr s.last_index, ?_⟩
      intro a ha b hb
      rcases List.mem_map.mp ha with ⟨r, hr, rfl⟩
      rcases List.mem_map.mp hb with ⟨q, hq, rfl⟩
      have h1 : r.index ≤ s.last_index := hle r hr
      have h2 : s.last_index < q.index := (acceptLoop_mem nr s.last_index q hq).1
      omega
    exact hfull.sublist ((pyTruncLast_sublist 200 _).map Roll.index)
  · intro r hr
    have hr2 : r ∈ s.rolls ++ (acceptLoop nr s.last_index).1 :=
      (pyTruncLast_sublist 200 _).mem hr
    rcases List.mem_append.mp hr2 with h1 | h1
    · exact le_trans (hle r h1) (acceptLoop_last_mono nr s.last_index)
    · exact (acceptLoop_mem nr s.last_index r h1).2

theorem add_rolls_len (s : SharedState) (nr : List Roll) :
    (add_rolls s nr).2.rolls.length ≤ 200 := by
  rw [add_rolls_eq]
  exact pyTruncLast_length 200 _

theorem add_rolls_last_mono (s : SharedState) (nr : List Roll) :
    s.last_index ≤ (add_rolls s nr).2.last_index := by
  rw [add_rolls_eq]
  exact acceptLoop_last_mono nr s.last_index

theorem add_rolls_accepted_le (s : SharedState) (nr : List Roll) :
    ∀ r ∈ (add_rolls s nr).1, r.index ≤ (add_rolls s nr).2.last_index := by
  rw [add_rolls_eq]
  intro r hr
  exact (acceptLoop_mem nr s.last_index r hr).2

theorem applyBatches_inv (batches : List (List Roll)) :
    ∀ s, StoreInv s → StoreInv (applyBatches s batches) := by
  induction batches with
  | nil => intro s h; exact h
  | cons b rest ih =>
    intro s h
    exact ih (add_rolls s b).2 (add_rolls_inv s b h)

theorem applyBatches_last_mono (batches : List (List Roll)) :
    ∀ s, s.last_index ≤ (applyBatches s batches).last_index := by
  induction batches with
  | nil => intro s; exact le_refl _
  | cons b rest ih =>
    intro s
    exact le_trans (add_rolls_last_mono s b) (ih (add_rolls s b).2)

theorem applyBatches_len (batches : List (List Roll)) :
    ∀ s, s.rolls.length ≤ 200 → (applyBatches s batches).rolls.length ≤ 200 := by
  induction batches with
  | nil => intro s h; exact h
  | cons b rest ih =>
    intro s _
    exact ih (add_rolls s b).2 (add_rolls_len s b)

theorem add_rolls_noop (s : SharedState) (b : List Roll)
    (hle : ∀ r ∈ b, r.index ≤ s.last_index) (hlen : s.rolls.length ≤ 200) :
    add_rolls s b = ([], s) := by
  rw [add_rolls_eq, acceptLoop_none b s.last_index hle]
  simp [pyTruncLast_eq_self 200 s.rolls hlen]

/-- C1: starting from the empty store, after any sequence of `add_rolls`
calls the stored roll indices are pairwise strictly increasing (hence no two
entries share an index), the store holds at most 200 entries, and every
`add_rolls` call leaves the store a suffix of the previous contents followed
by the newly accepted rolls (oldest evicted first). -/
theorem store_invariant_C1 (batches : List (List Roll)) :
    (((applyBatches initialState batches).rolls.map Roll.index).Pairwise (· < ·))
    ∧ ((applyBatches initialState batches).rolls.map Roll.index).Nodup
    ∧ (applyBatches initialState batches).rolls.length ≤ 200
    ∧ ∀ (s : SharedState) (b : List Roll),
        ((add_rolls s b).2.rolls).IsSuffix (s.rolls ++ (add_rolls s b).1) := by
  have hinv := applyBatches_inv batches initialState initialState_inv
  refine ⟨hinv.1, hinv.1.imp (fun h => Nat.ne_of_lt h),
    applyBatches_len batches initialState (by simp [initialState]), ?_⟩
  intro s b
  rw [add_rolls_eq]
  exact pyTruncLast_suffix 200 _

/-- C2: a batch whose rolls were all accepted by an earlier `add_rolls` call
is rejected wholesale on re-delivery, at any later point of the store's
life: the call returns an empty accepted list and the state (rolls and
high-water mark included) is unchanged. -/
theorem append_idempotent_C2 (s0 : SharedState) (b b2 : List Roll)
    (batches : List (List Roll))
    (h : ∀ r ∈ b2, r ∈ (add_rolls s0 b).1) :
    add_rolls (applyBatches (add_rolls s0 b).2 batches) b2
      = ([], applyBatches (add_rolls s0 b).2 batches) := by
  refine add_rolls_noop _ b2 ?_ ?_
  · intro r hr
    have h1 : r.index ≤ (add_rolls s0 b).2.last_index :=
      add_rolls_accepted_le s0 b r (h r hr)
    exact le_trans h1 (applyBatches_last_mono batches (add_rolls s0 b).2)
  · exact applyBatches_len batches (add_rolls s0 b).2 (add_rolls_len s0 b)

theorem append_idempotent_C2_witness :
    (∀ r ∈ [Roll.mk 1 "ct" ""], r ∈ (add_rolls initialState [Roll.mk 1 "ct" ""]).1)
    ∧ add_rolls (applyBatches (add_rolls initialState [Roll.mk 1 "ct" ""]).2 [])
        [Roll.mk 1 "ct" ""]
      = ([], applyBatches (add_rolls initialState [Roll.mk 1 "ct" ""]).2 []) :=
  ⟨by decide,
    append_idempotent_C2 initialState [Roll.mk 1 "ct" ""] [Roll.mk 1 "ct" ""] []
      (by decide)⟩

/-- C3 counterexample: from the empty store with the high-water mark at the
sentinel 0, a candidate batch whose indices are not in ascending arrangement
is NOT accepted in full — `add_rolls` enforces strict-greater-than against
the running maximum even for the seed batch, so of `[index 5, index 3]` only
the first element is accepted. -/
theorem seeding_C3_counterexample :
    (add_rolls initialState [Roll.mk 5 "ct" "", Roll.mk 3 "t" ""]).1
      ≠ [Roll.mk 5 "ct" "", Roll.mk 3 "t" ""] := by decide

/-- C3 (amended): from the empty store with the high-water mark at the
sentinel 0, `add_rolls` accepts the full candidate batch provided every
index is positive and the batch is in strictly ascending index arrangement;
elements not exceeding the running maximum of the batch are rejected. -/
theorem seeding_C3 (b : List Roll)
    (hpos : ∀ r ∈ b, 0 < r.index)
    (hpw : (b.map Roll.index).Pairwise (· < ·)) :
    (add_rolls initialState b).1 = b := by
  rw [add_rolls_eq]
  exact acceptLoop_all b initialState.last_index hpos hpw

theorem seeding_C3_witness :
    ((∀ r ∈ [Roll.mk 1 "ct" "", Roll.mk 2 "t" ""], 0 < r.index)
      ∧ (([Roll.mk 1 "ct" "", Roll.mk 2 "t" ""].map Roll.index).Pairwise (· < ·)))
    ∧ (add_rolls initialState [Roll.mk 1 "ct" "", Roll.mk 2 "t" ""]).1
        = [Roll.mk 1 "ct" "", Roll.mk 2 "t" ""] :=
  ⟨⟨by decide, by decide⟩, seeding_C3 _ (by decide) (by decide)⟩

/-- Concrete enabled CountBelow condition (window 100, threshold 5). -/
def cbCond : Condition :=
  { id := "c4", color := "ct", type := "count_below", param_n := 100,
    param_threshold := 5, cooldown_minutes := 10, last_fired_at := "",
    enabled := true, user_email := "u@example.com" }

/-- CountBelow condition with window 0 and threshold 1. -/
def cbCondZero : Condition :=
  { cbCond with id := "c4z", param_n := 0, param_threshold := 1 }

/-- C4 counterexample: the claimed equivalence "fires iff fewer than t of the
last min(n, length) outcomes match" fails on the code at two inputs it
quantifies over: the empty outcome sequence (0 matches < 5, yet `evaluate`
returns false because of the empty-window guard) and window n = 0 on a
one-element matching sequence (the last 0 outcomes hold 0 matches < 1, yet
the code counts over the whole list because Python `rolls[-0:]` is the whole
list). -/
theorem count_below_C4_counterexample :
    (¬ (evaluate cbCond [] = true ↔
        (([] : List Roll).drop (([] : List Roll).length - cbCond.param_n)).countP
          (fun r => r.coin == cbCond.color) < cbCond.param_threshold))
    ∧ ¬ (evaluate cbCondZero [Roll.mk 1 "ct" ""] = true ↔
        (([Roll.mk 1 "ct" ""] : List Roll).drop (1 - cbCondZero.param_n)).countP
          (fun r => r.coin == cbCondZero.color) < cbCondZero.param_threshold) := by
  exact ⟨by decide, by decide⟩

/-- C4 (amended): for window n ≥ 1, an enabled CountBelow condition fires iff
the outcome sequence is nonempty and fewer than threshold of the last
min(n, length) outcomes match the condition's category; on the empty
sequence it never fires. -/
theorem count_below_C4 (c : Condition) (rolls : List Roll)
    (hen : c.enabled = true) (ht : c.type = "count_below")
    (hn : 1 ≤ c.param_n) :
    (evaluate c rolls = true ↔
      rolls ≠ [] ∧
        (rolls.drop (rolls.length - c.param_n)).countP
          (fun r => r.coin == c.color) < c.param_threshold) := by
  cases rolls with
  | nil => simp [evaluate]
  | cons a l =>
    have hne : ¬ c.param_n = 0 := by omega
    simp [evaluate, hen, ht, _check_count_below, pySliceLast, hne]

/-- Rolls for the C4 witness: 96 non-matching then 4 matching outcomes. -/
def c4rolls : List Roll :=
  mkRolls 1 (List.replicate 96 "t" ++ List.replicate 4 "ct")

theorem count_below_C4_witness :
    (cbCond.enabled = true ∧ cbCond.type = "count_below" ∧ 1 ≤ cbCond.param_n)
    ∧ evaluate cbCond c4rolls = true :=
  ⟨⟨rfl, rfl, by decide⟩,
    (count_below_C4 cbCond c4rolls rfl rfl (by decide)).mpr
      ⟨by decide, by decide⟩⟩

/-- AbsentStreak condition with streak length 0. -/
def asCondZero : Condition :=
  { id := "c5z", color := "ct", type := "absent_streak", param_n := 0,
    param_threshold := 0, cooldown_minutes := 10, last_fired_at := "",
    enabled := true, user_email := "u@example.com" }

/-- C5 counterexample: with streak length n = 0 and a single matching
outcome, the claim's condition holds (the window has at least 0 entries and
none of the last 0 entries match), yet `evaluate` does not fire: Python
`rolls[-0:]` is the whole list, so the code scans every roll and finds the
match. -/
theorem absent_streak_C5_counterexample :
    ¬ (evaluate asCondZero [Roll.mk 1 "ct" ""] = true ↔
        (asCondZero.param_n ≤ ([Roll.mk 1 "ct" ""] : List Roll).length ∧
          ∀ r ∈ ([Roll.mk 1 "ct" ""] : List Roll).drop (1 - asCondZero.param_n),
            r.coin ≠ asCondZero.color)) := by decide

/-- C5 (amended): for streak length n ≥ 1, an enabled AbsentStreak condition
fires iff the sequence has at least n entries and none of the last n entries
match the condition's category; with fewer than n entries it never fires,
even if no entry matches. -/
theorem absent_streak_C5 (c : Condition) (rolls : List Roll)
    (hen : c.enabled = true) (ht : c.type = "absent_streak")
    (hn : 1 ≤ c.param_n) :
    (evaluate c rolls = true ↔
      c.param_n ≤ rolls.length ∧
        ∀ r ∈ rolls.drop (rolls.length - c.param_n), r.coin ≠ c.color) := by
  cases rolls with
  | nil =>
    constructor
    · intro h; simp [evaluate] at h
    · rintro ⟨h1, _⟩; simp at h1; omega
  | cons a l =>
    have hne : ¬ c.param_n = 0 := by omega
    rw [show evaluate c (a :: l) = _check_absent_streak c (a :: l) from by
      simp [evaluate, hen, ht]]
    unfold _check_absent_streak
    rw [show pySliceLast c.param_n (a :: l)
        = (a :: l).drop ((a :: l).length - c.param_n) from by
      simp [pySliceLast, hne]]
    simp only [List.length_drop]
    by_cases hcase : c.param_n ≤ (a :: l).length
    · rw [if_neg (by omega)]
      simp [List.all_eq_true, hcase]
      intro _
      simpa using hcase
    · rw [if_pos (by omega)]
      constructor
      · intro h; exact absurd h (by simp)
      · rintro ⟨h1, _⟩; exact absurd h1 hcase

/-- Enabled AbsentStreak condition with streak length 20. -/
def asCond : Condition :=
  { id := "c5", color := "ct", type := "absent_streak", param_n := 20,
    param_threshold := 0, cooldown_minutes := 10, last_fired_at := "",
    enabled := true, user_email := "u@example.com" }

theorem absent_streak_C5_witness :
    (asCond.enabled = true ∧ asCond.type = "absent_streak" ∧ 1 ≤ asCond.param_n)
    ∧ evaluate asCond (mkRolls 1 (List.replicate 20 "t")) = true :=
  ⟨⟨rfl, rfl, by decide⟩,
    (absent_streak_C5 asCond (mkRolls 1 (List.replicate 20 "t")) rfl rfl
      (by decide)).mpr ⟨by decide, by decide⟩⟩

/-- Parse oracle mapping one fixed ISO string to epoch second 0. -/
def parseAtZero : String → Option Int :=
  fun s => if s == "2026-01-01T00:00:00" then some 0 else none

/-- Condition that last fired at the fixed timestamp, cooldown 10 minutes. -/
def firedCond : Condition :=
  { id := "c6", color := "ct", type := "count_below", param_n := 100,
    param_threshold := 5, cooldown_minutes := 10,
    last_fired_at := "2026-01-01T00:00:00", enabled := true,
    user_email := "u@example.com" }

/-- C6: `is_in_cooldown` returns true iff `last_fired_at` is a set (nonempty)
string that the timestamp parser accepts, and now minus the parsed fire time
is strictly below `cooldown_minutes` (as seconds); an unparsable timestamp
is fail-open (not in cooldown).  Consequently a condition that fired 5
minutes ago with a 10-minute cooldown is in cooldown, and after 11 minutes
it is not. -/
theorem cooldown_gate_C6 :
    (∀ (parseIso : String → Option Int) (now : Int) (c : Condition),
        is_in_cooldown parseIso now c = true ↔
          c.last_fired_at ≠ "" ∧
            ∃ t, parseIso c.last_fired_at = some t ∧
              now - t < (c.cooldown_minutes : Int) * 60)
    ∧ is_in_cooldown parseAtZero 300 firedCond = true
    ∧ is_in_cooldown parseAtZero 660 firedCond = false := by
  refine ⟨?_, by decide, by decide⟩
  intro parseIso now c
  unfold is_in_cooldown
  by_cases hemp : c.last_fired_at = ""
  · simp [hemp]
  · rw [if_neg (by simp [hemp])]
    cases heq : parseIso c.last_fired_at with
    | none => simp [hemp, heq]
    | some t => simp [hemp, heq]

/-- Store holding exactly one roll. -/
def oneRollState : SharedState :=
  { rolls := [Roll.mk 1 "ct" ""], last_index := 1, conditions := [],
    alerts := [] }

/-- C9 counterexample: at n = 0 the claim demands the last min(0, count) = 0
entries, i.e. the empty list, but `get_rolls` computes Python `rolls[-0:]`,
which is the whole stored list. -/
theorem query_clamp_C9_counterexample :
    get_rolls oneRollState 0
      ≠ oneRollState.rolls.drop (oneRollState.rolls.length - 0) := by decide

/-- C9 (amended): for every store state and every n ≥ 1, `get_rolls` returns
exactly the last min(n, stored count) entries in arrival order (a suffix of
the store), without mutating the store; `get_rolls 0` instead returns the
entire stored list. -/
theorem query_clamp_C9 (s : SharedState) (n : Nat) (hn : 1 ≤ n) :
    get_rolls s n = s.rolls.drop (s.rolls.length - n)
    ∧ (get_rolls s n).length = min n s.rolls.length
    ∧ (get_rolls s n).IsSuffix s.rolls := by
  have hne : ¬ n = 0 := by omega
  have heq : get_rolls s n = s.rolls.drop (s.rolls.length - n) := by
    simp [get_rolls, pySliceLast, hne]
  refine ⟨heq, ?_, ?_⟩
  · rw [heq, List.length_drop]; omega
  · rw [heq]; exact List.drop_suffix _ _

theorem query_clamp_C9_witness :
    1 ≤ 1
    ∧ (get_rolls oneRollState 1
          = oneRollState.rolls.drop (oneRollState.rolls.length - 1)
        ∧ (get_rolls oneRollState 1).length = min 1 oneRollState.rolls.length
        ∧ (get_rolls oneRollState 1).IsSuffix oneRollState.rolls) :=
  ⟨by decide, query_clamp_C9 oneRollState 1 (by decide)⟩

set_option maxRecDepth 8000 in
/-- Capacity scenario behind C9's amended claim: inserting 250 sequential
outcomes into the empty store retains exactly the 200 most recent, and a
200-entry query returns all of them. -/
theorem capacity_bound_250 :
    (add_rolls initialState (mkRolls 1 (List.replicate 250 "ct"))).2.rolls
      = mkRolls 51 (List.replicate 200 "ct")
    ∧ get_rolls (add_rolls initialState (mkRolls 1 (List.replicate 250 "ct"))).2 200
      = mkRolls 51 (List.replicate 200 "ct") := by decide

/-- C10: `evaluate` returns false for every condition whose type is none of
the three known kinds, for every disabled condition, and for every empty
window; it never fires in those cases. -/
theorem unknown_type_C10 (c : Condition) (rolls : List Roll)
    (h : (c.type ≠ "count_below" ∧ c.type ≠ "absent_streak"
            ∧ c.type ≠ "consecutive")
          ∨ c.enabled = false ∨ rolls = []) :
    evaluate c rolls = false := by
  rcases h with ⟨h1, h2, h3⟩ | h | h
  · unfold evaluate
    split
    · rfl
    · rw [if_neg (by simp [h1]), if_neg (by simp [h2]), if_neg (by simp [h3])]
  · simp [evaluate, h]
  · simp [evaluate, h]

/-- Condition with an unrecognised type string. -/
def unknownCond : Condition :=
  { id := "c10", color := "ct", type := "mystery", param_n := 3,
    param_threshold := 1, cooldown_minutes := 10, last_fired_at := "",
    enabled := true, user_email := "" }

theorem unknown_type_C10_witness :
    ((unknownCond.type ≠ "count_below" ∧ unknownCond.type ≠ "absent_streak"
        ∧ unknownCond.type ≠ "consecutive")
      ∨ unknownCond.enabled = false ∨ ([Roll.mk 1 "ct" ""] : List Roll) = [])
    ∧ evaluate unknownCond [Roll.mk 1 "ct" ""] = false :=
  ⟨Or.inl ⟨by decide, by decide, by decide⟩,
    unknown_type_C10 unknownCond [Roll.mk 1 "ct" ""]
      (Or.inl ⟨by decide, by decide, by decide⟩)⟩

/-- C8: `remove_condition` removes exactly the conditions matching both the
id and the owner; the survivors are the non-matching conditions in their
original relative order, a call with no matching condition is a no-op on the
whole state, the call is idempotent, and rolls, high-water mark and alerts
are never touched. -/
theorem owner_isolation_C8 (s : SharedState) (cid owner : String) :
    ((remove_condition s cid owner).conditions.Sublist s.conditions)
    ∧ (∀ c ∈ s.conditions, ¬(c.id = cid ∧ c.user_email = owner) →
        c ∈ (remove_condition s cid owner).conditions)
    ∧ (∀ c ∈ (remove_condition s cid owner).conditions,
        ¬(c.id = cid ∧ c.user_email = owner))
    ∧ ((∀ c ∈ s.conditions, ¬(c.id = cid ∧ c.user_email = owner)) →
        remove_condition s cid owner = s)
    ∧ remove_condition (remove_condition s cid owner) cid owner
        = remove_condition s cid owner
    ∧ (remove_condition s cid owner).rolls = s.rolls
    ∧ (remove_condition s cid owner).last_index = s.last_index
    ∧ (remove_condition s cid owner).alerts = s.alerts := by
  have hpred : ∀ c : Condition,
      (!(c.id == cid && c.user_email == owner)) = true
        ↔ ¬(c.id = cid ∧ c.user_email = owner) := by
    intro c
    simp [Bool.not_eq_true', Bool.and_eq_true, beq_iff_eq]
    tauto
  refine ⟨List.filter_sublist _, ?_, ?_, ?_, ?_, rfl, rfl, rfl⟩
  · intro c hc hnm
    exact List.mem_filter.mpr ⟨hc, (hpred c).mpr hnm⟩
  · intro c hc
    exact (hpred c).mp (List.mem_filter.mp hc).2
  · intro hall
    have : s.conditions.filter
        (fun c => !(c.id == cid && c.user_email == owner)) = s.conditions :=
      List.filter_eq_self.mpr (fun c hc => (hpred c).mpr (hall c hc))
    simp only [remove_condition, this]
  · have h2 : (List.filter (fun c => !(c.id == cid && c.user_email == owner))
          s.conditions).filter
        (fun c => !(c.id == cid && c.user_email == owner))
        = List.filter (fun c => !(c.id == cid && c.user_email == owner))
            s.conditions :=
      List.filter_eq_self.mpr (fun c hc => (List.mem_filter.mp hc).2)
    simp only [remove_condition, h2]

/-- External collaborators and clock of one `_evaluate_conditions` tick
(scraper.py): `parseIso` and `nowSec` as in `is_in_cooldown`, `nowIso` the
string `datetime.now().isoformat()` writes into `last_fired_at` and
`fired_at`, `get_discord_id` models `auth.get_discord_id`,
`notifier_configured` models `notifier.is_configured()`, `send_alert` models
`notifier.send_alert` returning `(success, error)`, and `fresh_id` the
uuid-generated id of the k-th alert created during the tick. -/
structure Env where
  parseIso : String → Option Int
  nowSec : Int
  nowIso : String
  get_discord_id : String → Option String
  notifier_configured : Bool
  send_alert : String → Condition → List Roll → Bool × String
  fresh_id : Nat → String

/-- Body of the `for condition in state.get_all_conditions()` loop of
`_evaluate_conditions` (scraper.py); the accumulator carries the evolving
state and the number of alerts created so far this tick.  A `some ""`
discord id is falsy in Python and treated like `None`. -/
def processCondition (env : Env) (rolls : List Roll)
    (acc : SharedState × Nat) (condition : Condition) : SharedState × Nat :=
  if !condition.enabled then acc
  else if is_in_cooldown env.parseIso env.nowSec condition then acc
  else if !evaluate condition rolls then acc
  else
    let discord_id :=
      if condition.user_email != "" then env.get_discord_id condition.user_email
      else none
    let res :=
      match discord_id with
      | some d =>
          if d != "" && env.notifier_configured then env.send_alert d condition rolls
          else (false, "No Discord ID configured")
      | none => (false, "No Discord ID configured")
    let s1 := update_condition_fired acc.1 condition.id env.nowIso
    let s2 := add_alert s1
      { id := env.fresh_id acc.2, condition_id := condition.id,
        condition_desc := description condition,
        user_email := condition.user_email, fired_at := env.nowIso,
        email_sent := res.1, error := res.2 }
    (s2, acc.2 + 1)

/-- `_evaluate_conditions` (scraper.py): evaluate every registered condition
against the last 100 rolls, firing and alerting as needed. -/
def _evaluate_conditions (env : Env) (s : SharedState) : SharedState :=
  (s.conditions.foldl (processCondition env (get_rolls s 100)) (s, 0)).1

theorem pyTruncLast_append_singleton (cap : Nat) (xs : List α) (a : α)
    (hcap : 0 < cap) :
    ∃ pre, pyTruncLast cap (xs ++ [a]) = pre ++ [a] := by
  unfold pyTruncLast
  split
  · refine ⟨(xs.drop ((xs ++ [a]).length - cap)), ?_⟩
    rw [List.drop_append_of_le_length]
    simp
    omega
  · exact ⟨xs, rfl⟩

/-- C7: when the registered condition fires (enabled, out of cooldown,
evaluates true) for an owner with no resolvable Discord target, the tick
still marks it fired (its `last_fired_at` becomes the tick timestamp) and
appends an Alert with `email_sent = false` and the non-empty error
"No Discord ID configured"; afterwards the condition is in cooldown for any
instant less than `cooldown_minutes` past the tick, so it cannot fire again
until the cooldown elapses. -/
theorem dispatch_failure_C7 (env : Env) (s : SharedState) (c : Condition)
    (hconds : s.conditions = [c])
    (hen : c.enabled = true)
    (hcool : is_in_cooldown env.parseIso env.nowSec c = false)
    (heval : evaluate c (get_rolls s 100) = true)
    (htarget : c.user_email = "" ∨ env.get_discord_id c.user_email = none) :
    (_evaluate_conditions env s).conditions
        = [{ c with last_fired_at := env.nowIso }]
    ∧ (∃ pre, (_evaluate_conditions env s).alerts
        = pre ++ [{ id := env.fresh_id 0, condition_id := c.id,
                    condition_desc := description c,
                    user_email := c.user_email, fired_at := env.nowIso,
                    email_sent := false,
                    error := "No Discord ID configured" }])
    ∧ ∀ (t now2 : Int), env.nowIso ≠ "" → env.parseIso env.nowIso = some t →
        now2 - t < (c.cooldown_minutes : Int) * 60 →
        is_in_cooldown env.parseIso now2 { c with last_fired_at := env.nowIso }
          = true := by
  have hdid : (if c.user_email = "" then none
      else env.get_discord_id c.user_email) = (none : Option String) := by
    rcases htarget with h | h
    · simp [h]
    · by_cases hu : c.user_email = "" <;> simp [hu, h]
  have hstep : _evaluate_conditions env s
      = (processCondition env (get_rolls s 100) (s, 0) c).1 := by
    unfold _evaluate_conditions
    rw [hconds]
    rfl
  have hproc : processCondition env (get_rolls s 100) (s, 0) c
      = (add_alert (update_condition_fired s c.id env.nowIso)
          { id := env.fresh_id 0, condition_id := c.id,
            condition_desc := description c, user_email := c.user_email,
            fired_at := env.nowIso, email_sent := false,
            error := "No Discord ID configured" }, 1) := by
    simp [processCondition, hen, hcool, heval, hdid]
  rw [hstep, hproc]
  refine ⟨?_, ?_, ?_⟩
  · simp [add_alert, update_condition_fired, hconds, markFired]
  · simp only [add_alert, update_condition_fired]
    exact pyTruncLast_append_singleton 500 _ _ (by omega)
  · intro t now2 hne hparse hlt
    simp [is_in_cooldown, hne, hparse, hlt]

/-- Enabled CountBelow condition owned by a user with no Discord target. -/
def c7cond : Condition :=
  { id := "c7", color := "ct", type := "count_below", param_n := 100,
    param_threshold := 5, cooldown_minutes := 10, last_fired_at := "",
    enabled := true, user_email := "nobody@example.com" }

/-- Store holding one roll and the single condition `c7cond`. -/
def c7state : SharedState :=
  { rolls := [Roll.mk 1 "t" ""], last_index := 1, conditions := [c7cond],
    alerts := [] }

/-- Tick environment in which no owner resolves to a Discord id. -/
def c7env : Env :=
  { parseIso := fun str => if str == "2026-01-01T00:10:00" then some 600 else none,
    nowSec := 600, nowIso := "2026-01-01T00:10:00",
    get_discord_id := fun _ => none, notifier_configured := false,
    send_alert := fun _ _ _ => (true, ""), fresh_id := fun _ => "a1" }

theorem dispatch_failure_C7_witness :
    (c7state.conditions = [c7cond]
      ∧ c7cond.enabled = true
      ∧ is_in_cooldown c7env.parseIso c7env.nowSec c7cond = false
      ∧ evaluate c7cond (get_rolls c7state 100) = true
      ∧ (c7cond.user_email = "" ∨ c7env.get_discord_id c7cond.user_email = none))
    ∧ ((_evaluate_conditions c7env c7state).conditions
          = [{ c7cond with last_fired_at := c7env.nowIso }]
        ∧ (∃ pre, (_evaluate_conditions c7env c7state).alerts
            = pre ++ [{ id := c7env.fresh_id 0, condition_id := c7cond.id,
                        condition_desc := description c7cond,
                        user_email := c7cond.user_email,
                        fired_at := c7env.nowIso, email_sent := false,
                        error := "No Discord ID configured" }])
        ∧ ∀ (t now2 : Int), c7env.nowIso ≠ "" →
            c7env.parseIso c7env.nowIso = some t →
            now2 - t < (c7cond.cooldown_minutes : Int) * 60 →
            is_in_cooldown c7env.parseIso now2
              { c7cond with last_fired_at := c7env.nowIso } = true) :=
  ⟨⟨rfl, rfl, by decide, by decide, Or.inr rfl⟩,
    dispatch_failure_C7 c7env c7state c7cond rfl rfl (by decide) (by decide)
      (Or.inr rfl)⟩

end SiteObserver
